import Mathlib

/-!
Verification development for the `tryo` resilient task executor.

The definitions below are a shallow embedding of the TypeScript sources:

* `src/error/typed-error.ts` / `src/error/error-builder.ts` /
  `src/error/error-normalizer.ts` / `src/error/error-rules.ts` —
  the typed-error model and the rule-driven normalizer;
* `src/retry/retry-strategies.ts` — backoff strategies;
* `src/types/branded-types.ts` — runtime validation helpers;
* `src/core/tryo.ts` — the engine (`buildNormalizer`,
  `normalizeExecutionConfig`, `TryoEngine.run`, `executeInternal`);
* `src/circuit-breaker/breaker.ts` — the circuit breaker;
* `src/utils/timing.ts` — the cancellation-aware sleep.

Modelling conventions: JavaScript numbers are modelled as `Rat` (delays,
timeouts, clock values) and `Nat` (attempt counters, HTTP statuses);
wall-clock readings (`Date.now()`) are passed explicitly where the code
reads the clock, and duration/timestamp fields that only record the clock
are omitted from metrics.  Promise scheduling is replaced by an explicit
environment that states how each attempt settles and whether the outer
cancellation signal fires during a given retry sleep.  Error messages and
stack traces are not modelled; a typed error is represented by its `code`,
`retryable` flag and optional `status`.  Randomised jitter is not part of
any modelled scenario (an absent `jitter` option makes `applyJitter` the
identity, per `applyJitter` in tryo.ts), so delays are used unjittered.
-/

namespace Tryo

/-- Typed error (`TypedError` in typed-error.ts), restricted to the fields
the engine inspects: `code`, `retryable` and the optional numeric
`status`.  The `TypedError` constructor defaults `retryable` to `true`
when a rule body does not set it. -/
structure TypedErrorE where
  code : String
  retryable : Bool
  status : Option Nat := none
deriving Repr, DecidableEq

/-- A raw thrown JavaScript value, as discriminated by the built-in rules:
a `TypedError` instance, an `Error` instance (with its `name`, lowercased
message, and optional `code` / `status` properties), a plain object
carrying optional `status` / `code` properties, a thrown string, or
anything else. -/
inductive RawValue where
  | typedErr (e : TypedErrorE)
  | jsError (name : String) (msgLower : String) (code : Option String)
      (status : Option Nat)
  | plainObj (status : Option Nat) (code : Option String)
  | strVal (s : String)
  | otherVal
deriving Repr, DecidableEq

/-- `pat` is a prefix of `s` (character lists). -/
def prefixOfCL : List Char → List Char → Bool
  | [], _ => true
  | _ :: _, [] => false
  | a :: as, b :: bs => a == b && prefixOfCL as bs

/-- `pat` occurs somewhere in `s` (character lists). -/
def containsSubCL (pat : List Char) : List Char → Bool
  | [] => prefixOfCL pat []
  | b :: bs => prefixOfCL pat (b :: bs) || containsSubCL pat bs

/-- `s` contains `pat` as a substring (used for the lowercased message
checks of `isNetworkish` in error-builder.ts). -/
def containsSub (s pat : String) : Bool :=
  containsSubCL pat.data s.data

/-- The network error code set of `isNetworkish` (error-builder.ts). -/
def networkCodes : List String :=
  ["ECONNRESET", "ECONNREFUSED", "ETIMEDOUT", "ENOTFOUND", "EAI_AGAIN"]

/-- `hasStringCode` (error-builder.ts): the value is an object with a
non-empty string `code`. -/
def hasStringCodeOf : RawValue → Option String
  | RawValue.jsError _ _ (some c) _ => if c.length > 0 then some c else none
  | RawValue.plainObj _ (some c) => if c.length > 0 then some c else none
  | _ => none

/-- `isNetworkish` (error-builder.ts): an `Error` whose message mentions
fetch failure or a network, or a value whose `code` is one of the known
network codes. -/
def isNetworkish (v : RawValue) : Bool :=
  match v with
  | RawValue.jsError name msg _ _ =>
      let byMsg :=
        (name == "TypeError" &&
          ((containsSub msg "fetch" && containsSub msg "failed") ||
            containsSub msg "network")) ||
        (containsSub msg "fetch" && containsSub msg "failed") ||
        containsSub msg "network"
      if byMsg then true
      else
        match hasStringCodeOf v with
        | some c => networkCodes.contains c.toUpper
        | none => false
  | _ =>
      match hasStringCodeOf v with
      | some c => networkCodes.contains c.toUpper
      | none => false

/-- `hasNumericStatus` (error-builder.ts): the numeric
`status`/`statusCode` property of an object, when present. -/
def numericStatusOf : RawValue → Option Nat
  | RawValue.jsError _ _ _ (some s) => some s
  | RawValue.plainObj (some s) _ => some s
  | _ => none

/-- `BuiltinRules.typed`: preserve `TypedError` instances as-is. -/
def ruleTyped : RawValue → Option TypedErrorE
  | RawValue.typedErr e => some e
  | _ => none

/-- `BuiltinRules.abort`: an `Error` named `AbortError` becomes
`ABORTED`, not retryable. -/
def ruleAbort : RawValue → Option TypedErrorE
  | RawValue.jsError name _ _ _ =>
      if name == "AbortError" then
        some { code := "ABORTED", retryable := false }
      else none
  | _ => none

/-- `BuiltinRules.timeout`: an `Error` named `TimeoutError` becomes
`TIMEOUT`; the rule body does not set `retryable`, so the `TypedError`
default (`true`) applies. -/
def ruleTimeout : RawValue → Option TypedErrorE
  | RawValue.jsError name _ _ _ =>
      if name == "TimeoutError" then
        some { code := "TIMEOUT", retryable := true }
      else none
  | _ => none

/-- `BuiltinRules.http`: an object with numeric status `≥ 400` becomes
`HTTP`, retryable iff the status is `≥ 500` or `= 429`. -/
def ruleHttp (v : RawValue) : Option TypedErrorE :=
  match numericStatusOf v with
  | some s =>
      if s ≥ 400 then
        some { code := "HTTP", retryable := (s ≥ 500 || s == 429),
               status := some s }
      else none
  | none => none

/-- `BuiltinRules.network`: networkish values become `NETWORK`
(`retryable` defaults to `true`). -/
def ruleNetwork (v : RawValue) : Option TypedErrorE :=
  if isNetworkish v then some { code := "NETWORK", retryable := true }
  else none

/-- `BuiltinRules.unknown`: any remaining `Error` instance (that is not a
`TypedError`) becomes `UNKNOWN` (`retryable` defaults to `true`). -/
def ruleUnknown : RawValue → Option TypedErrorE
  | RawValue.jsError _ _ _ _ => some { code := "UNKNOWN", retryable := true }
  | _ => none

/-- `defaultRules` (error-rules.ts): typed, abort, timeout, http,
network, unknown — in this order. -/
def defaultRules : List (RawValue → Option TypedErrorE) :=
  [ruleTyped, ruleAbort, ruleTimeout, ruleHttp, ruleNetwork, ruleUnknown]

/-- `createFallbackNormalizer(UnknownError)` (error-normalizer.ts):
preserve `TypedError`s, wrap everything else as `UNKNOWN` (the
`UnknownError` constructor leaves `retryable` at the default `true`). -/
def fallbackNormalizer : RawValue → TypedErrorE
  | RawValue.typedErr e => e
  | _ => { code := "UNKNOWN", retryable := true }

/-- `createErrorNormalizer` (error-normalizer.ts): try the rules in
order, first non-null result wins, otherwise apply the fallback. -/
def runRules (rules : List (RawValue → Option TypedErrorE))
    (fallback : RawValue → TypedErrorE) (v : RawValue) : TypedErrorE :=
  match rules with
  | [] => fallback v
  | r :: rest =>
      match r v with
      | some e => e
      | none => runRules rest fallback v

/-- The default normalizer the engine installs when no rules are given:
the built-in rules followed by the `UnknownError` fallback. -/
def defaultNormalizer (v : RawValue) : TypedErrorE :=
  runRules defaultRules fallbackNormalizer v

/-! Retry strategies (retry-strategies.ts). -/

/-- `RetryStrategy` (retry-strategies.ts).  `maxDelay` is the optional
cap; the `custom` variant carries the caller's function. -/
inductive RetryStrategy where
  | fixed (delay : ℚ)
  | exponential (base : ℚ) (factor : ℚ) (maxDelay : Option ℚ)
  | fibonacci (base : ℚ) (maxDelay : Option ℚ)
  | custom (calculate : ℕ → TypedErrorE → ℚ)

/-- The iterative body of the `fibonacci` helper in retry-strategies.ts:
`k` remaining loop iterations, current `prev` and `curr`. -/
def fibLoop : ℕ → ℕ → ℕ → ℕ
  | 0, _, curr => curr
  | k + 1, prev, curr => fibLoop k curr (prev + curr)

/-- The `fibonacci` helper of retry-strategies.ts: returns `1` for
`n ≤ 1`, otherwise runs the loop from `i = 2` to `n` starting from
`prev = curr = 1`. -/
def fibCode (n : ℕ) : ℕ :=
  if n ≤ 1 then 1 else fibLoop (n - 1) 1 1

/-- `calculateDelay` (retry-strategies.ts).  The `maxDelay` cap is
applied through a JavaScript truthiness test (`strategy.maxDelay ? … :
…`), so a cap of `0` applies no clamping. -/
def calculateDelay (strategy : RetryStrategy) (attempt : ℕ)
    (error : TypedErrorE) : ℚ :=
  match strategy with
  | RetryStrategy.fixed delay => delay
  | RetryStrategy.exponential base factor maxDelay =>
      let expDelay := base * factor ^ (attempt - 1)
      match maxDelay with
      | some cap => if cap == 0 then expDelay else min expDelay cap
      | none => expDelay
  | RetryStrategy.fibonacci base maxDelay =>
      let fibDelay := base * (fibCode attempt : ℚ)
      match maxDelay with
      | some cap => if cap == 0 then fibDelay else min fibDelay cap
      | none => fibDelay
  | RetryStrategy.custom calculate => calculate attempt error

/-- `validateStrategy` (retry-strategies.ts), as an `Except` mirroring
the thrown diagnostics.  The `maxDelay` checks go through the same
truthiness test as the code (`strategy.maxDelay && strategy.maxDelay <=
0`), so a cap of `0` passes. -/
def validateStrategy : RetryStrategy → Except String Unit
  | RetryStrategy.fixed delay =>
      if delay ≤ 0 then Except.error "Fixed delay must be positive"
      else Except.ok ()
  | RetryStrategy.exponential base factor maxDelay =>
      if base ≤ 0 then Except.error "Exponential base delay must be positive"
      else if factor ≤ 1 then
        Except.error "Exponential factor must be greater than 1"
      else
        match maxDelay with
        | some cap =>
            if cap ≠ 0 ∧ cap ≤ 0 then
              Except.error "Exponential max delay must be positive"
            else Except.ok ()
        | none => Except.ok ()
  | RetryStrategy.fibonacci base maxDelay =>
      if base ≤ 0 then Except.error "Fibonacci base delay must be positive"
      else
        match maxDelay with
        | some cap =>
            if cap ≠ 0 ∧ cap ≤ 0 then
              Except.error "Fibonacci max delay must be positive"
            else Except.ok ()
        | none => Except.ok ()
  | RetryStrategy.custom _ => Except.ok ()

/-! Branded-type validators (branded-types.ts). -/

/-- `asMilliseconds` (branded-types.ts): rejects negative values (the
finiteness condition is implicit in `Rat`); `0` is accepted. -/
def asMilliseconds (n : ℚ) : Except String ℚ :=
  if n < 0 then Except.error "Invalid milliseconds" else Except.ok n

/-- `asRetryCount` (branded-types.ts): a non-negative integer.  The
model keeps retry counts as `Nat` inputs, so only well-formed values
arrive and the validator always succeeds; it is retained to mirror the
call sites. -/
def asRetryCount (n : ℕ) : Except String ℕ :=
  Except.ok n

/-- `asPercentage` (branded-types.ts): a number in `[0, 100]`. -/
def asPercentage (n : ℚ) : Except String ℚ :=
  if n < 0 ∨ n > 100 then Except.error "Invalid percentage" else Except.ok n

/-! The single-task engine (`executeInternal` in tryo.ts). -/

/-- One retry-history entry (timestamps, which only record the clock,
are omitted). -/
structure RetryEntry where
  attempt : ℕ
  error : TypedErrorE
  delay : ℚ
deriving Repr, DecidableEq

/-- The observability events `executeInternal` emits, in program order.
Hook calls go through `safeCall`, which swallows hook exceptions without
affecting control flow, so the trace records each invocation the engine
makes.  Sleep events mark the cancellation-aware `sleep` between
retries, with whether the outer signal fired during it. -/
inductive Event where
  | onAbort
  | onError (e : TypedErrorE)
  | onRetry (attempt : ℕ) (e : TypedErrorE) (delay : ℚ)
  | onSuccess
  | onFinally
  | sleepOk (delay : ℚ)
  | sleepAborted (delay : ℚ)
deriving Repr, DecidableEq

/-- The retry context handed to `shouldRetry` (tryo.ts): `totalAttempts`
and the `lastDelay` of the previous history entry; the clock-derived
`elapsedTime` / `startTime` fields are omitted.  `lastDelay` goes
through the source's truthiness test, so a recorded delay of `0` yields
no `lastDelay`. -/
structure RetryCtx where
  totalAttempts : ℕ
  lastDelay : Option ℚ
deriving Repr

/-- Retry configuration (`retry` in config-types.ts), without the
randomised jitter option (absent jitter makes `applyJitter` the
identity). -/
structure RetryCfg where
  maxRetries : ℕ
  strategy : RetryStrategy
  shouldRetry : Option (ℕ → TypedErrorE → RetryCtx → Bool)

/-- The part of the merged execution config `executeInternal` consumes.
`preAborted` states whether the outer composite signal is already
aborted when the call starts (`compositeSignal.aborted`). -/
structure EngCfg where
  preAborted : Bool
  ignoreAbort : Bool := true
  timeout : Option ℚ := none
  retry : Option RetryCfg := none
  normalizer : RawValue → TypedErrorE
  mapError : Option (TypedErrorE → TypedErrorE) := none

/-- Normalize and then apply the optional `mapError`, as `executeInternal`
does on every caught value. -/
def normMap (cfg : EngCfg) (raw : RawValue) : TypedErrorE :=
  let norm := cfg.normalizer raw
  match cfg.mapError with
  | some f => f norm
  | none => norm

/-- The task environment for one `run` call: how attempt `k` (1-based)
settles — counting the per-attempt timeout race, so a fired timeout
appears as a thrown `TimeoutError` instance — and whether the outer
signal fires during the retry sleep that follows attempt `k`. -/
structure TaskEnv (α : Type) where
  attemptResult : ℕ → α ⊕ RawValue
  sleepAborted : ℕ → Bool

/-- How the attempt loop exits: the task fulfilled, the loop threw the
mapped error, or the retry sleep was cancelled (the sleep rejects with a
`DOMException` named `AbortError` that propagates out of the loop). -/
inductive LoopExit (α : Type) where
  | success (v : α)
  | thrown (e : TypedErrorE)
  | sleepAbort
deriving Repr, DecidableEq

/-- What the attempt loop produced: its exit, the final attempt number
(`totalAttempts` is assigned at the top of every iteration), the
accumulated retry history, the emitted events, and `lastError`. -/
structure LoopOut (α : Type) where
  exit : LoopExit α
  finalAttempt : ℕ
  hist : List RetryEntry
  events : List Event
  lastError : Option TypedErrorE

/-- The `DOMException('Aborted', 'AbortError')` value the sleep and the
pre-aborted path throw. -/
def abortRaw : RawValue :=
  RawValue.jsError "AbortError" "aborted" none none

/-- `maxRetries` as the loop reads it: `asRetryCount(retry?.maxRetries ?? 0)`. -/
def cfgMaxRetries (cfg : EngCfg) : ℕ :=
  match cfg.retry with
  | some r => r.maxRetries
  | none => 0

/-- The `lastDelay` context field: the delay of the last history entry,
through the source's truthiness test (`…?.delay ? Number(…) : undefined`). -/
def lastDelayOf (hist : List RetryEntry) : Option ℚ :=
  match hist.getLast? with
  | some en => if en.delay = 0 then none else some en.delay
  | none => none

/-- The `while (true)` attempt loop of `executeInternal.runAttempt`
(tryo.ts).  `fuel` bounds the recursion; the engine supplies
`maxRetries + 1`, which the `attempt ≤ maxRetries` retry guard never
exhausts.  Each iteration: record `totalAttempts := attempt`; on
fulfilment emit `onSuccess` and exit; on rejection normalize and map the
error, store it as `lastError`, emit `onAbort` when the code is
`ABORTED` and `onError` unless (`ignoreAbort` and `ABORTED`), throw
`ABORTED` errors unconditionally, otherwise decide the retry
(`attempt ≤ maxRetries`, then `shouldRetry` defaulting to true), append
the history entry, emit `onRetry`, and sleep — exiting with `sleepAbort`
if the outer signal fires during the sleep. -/
def runAttemptGo {α : Type} (cfg : EngCfg) (env : TaskEnv α) :
    ℕ → ℕ → List RetryEntry → LoopOut α
  | 0, attempt, hist =>
      -- Unreachable under the engine's fuel (`maxRetries + 1`): the
      -- retry branch requires `attempt ≤ maxRetries` and consumes fuel.
      { exit := LoopExit.sleepAbort, finalAttempt := attempt, hist := hist,
        events := [], lastError := none }
  | fuel + 1, attempt, hist =>
      match env.attemptResult attempt with
      | Sum.inl v =>
          { exit := LoopExit.success v, finalAttempt := attempt,
            hist := hist, events := [Event.onSuccess], lastError := none }
      | Sum.inr raw =>
          let mapped := normMap cfg raw
          let abortEvs : List Event :=
            if mapped.code == "ABORTED" then [Event.onAbort] else []
          let errorEvs : List Event :=
            if !(cfg.ignoreAbort && mapped.code == "ABORTED") then
              [Event.onError mapped]
            else []
          let preEvs := abortEvs ++ errorEvs
          if mapped.code == "ABORTED" then
            { exit := LoopExit.thrown mapped, finalAttempt := attempt,
              hist := hist, events := preEvs, lastError := some mapped }
          else if attempt ≤ cfgMaxRetries cfg then
            let ctx : RetryCtx :=
              { totalAttempts := attempt, lastDelay := lastDelayOf hist }
            let doRetry :=
              match cfg.retry with
              | some r =>
                  match r.shouldRetry with
                  | some p => p attempt mapped ctx
                  | none => true
              | none => true
            if doRetry then
              let baseDelay :=
                match cfg.retry with
                | some r => calculateDelay r.strategy attempt mapped
                | none => 0
              let delay := baseDelay
              let hist1 := hist ++
                [{ attempt := attempt, error := mapped, delay := delay }]
              if env.sleepAborted attempt then
                { exit := LoopExit.sleepAbort, finalAttempt := attempt,
                  hist := hist1,
                  events := preEvs ++
                    [Event.onRetry attempt mapped delay,
                     Event.sleepAborted delay],
                  lastError := some mapped }
              else
                let rest := runAttemptGo cfg env fuel (attempt + 1) hist1
                { exit := rest.exit, finalAttempt := rest.finalAttempt,
                  hist := rest.hist,
                  events := preEvs ++
                    [Event.onRetry attempt mapped delay,
                     Event.sleepOk delay] ++ rest.events,
                  lastError :=
                    match rest.lastError with
                    | some e => some e
                    | none => some mapped }
            else
              { exit := LoopExit.thrown mapped, finalAttempt := attempt,
                hist := hist, events := preEvs, lastError := some mapped }
          else
            { exit := LoopExit.thrown mapped, finalAttempt := attempt,
              hist := hist, events := preEvs, lastError := some mapped }

/-- Result discriminator (`TryoResult.type`). -/
inductive ResultType where
  | success
  | failure
  | timeout
  | aborted
deriving Repr, DecidableEq

/-- Per-call metrics (`buildMetrics` in tryo.ts), without the
clock-derived `totalDuration`. -/
structure Metrics where
  totalAttempts : ℕ
  totalRetries : ℕ
  lastError : Option TypedErrorE
  retryHistory : List RetryEntry
deriving Repr

/-- The discriminated result of one `run` call. -/
structure TryoResult (α : Type) where
  type : ResultType
  ok : Bool
  data : Option α
  error : Option TypedErrorE
  metrics : Metrics

/-- `buildMetrics` (tryo.ts): `totalRetries` is `totalAttempts - 1`
clamped at `0`; `lastError` is the override argument (absent on the
success path). -/
def buildMetrics (totalAttempts : ℕ) (hist : List RetryEntry)
    (lastErrorOverride : Option TypedErrorE) : Metrics :=
  { totalAttempts := totalAttempts,
    totalRetries := if totalAttempts > 0 then totalAttempts - 1 else 0,
    lastError := lastErrorOverride,
    retryHistory := hist }

/-- The result `type` derived from the final error's code (tryo.ts). -/
def kindOfCode (code : String) : ResultType :=
  if code == "TIMEOUT" then ResultType.timeout
  else if code == "ABORTED" then ResultType.aborted
  else ResultType.failure

/-- `executeInternal` (tryo.ts), also returning the event trace.  If the
composite signal is already aborted, emit `onAbort`, normalize a
synthetic `AbortError` and return an `aborted` result (note: no
`onFinally` on this path).  Otherwise run the attempt loop with fuel
`maxRetries + 1`; on success build metrics (no `lastError` override) and
emit `onFinally`; on a throw or a cancelled sleep compute
`finalError = lastError ?? normalizer(err)`, derive the result type from
its code, build metrics with it, and emit `onFinally`. -/
def executeInternal {α : Type} (cfg : EngCfg) (env : TaskEnv α) :
    TryoResult α × List Event :=
  if cfg.preAborted then
    let mapped := normMap cfg abortRaw
    ({ type := ResultType.aborted, ok := false, data := none,
       error := some mapped,
       metrics := { totalAttempts := 0, totalRetries := 0,
                    lastError := some mapped, retryHistory := [] } },
     [Event.onAbort])
  else
    let out := runAttemptGo cfg env (cfgMaxRetries cfg + 1) 1 []
    match out.exit with
    | LoopExit.success v =>
        let metrics := buildMetrics out.finalAttempt out.hist none
        ({ type := ResultType.success, ok := true, data := some v,
           error := none, metrics := metrics },
         out.events ++ [Event.onFinally])
    | LoopExit.thrown e =>
        let finalError :=
          match out.lastError with
          | some le => le
          | none => cfg.normalizer (RawValue.typedErr e)
        let metrics := buildMetrics out.finalAttempt out.hist (some finalError)
        ({ type := kindOfCode finalError.code, ok := false, data := none,
           error := some finalError, metrics := metrics },
         out.events ++ [Event.onFinally])
    | LoopExit.sleepAbort =>
        let finalError :=
          match out.lastError with
          | some le => le
          | none => cfg.normalizer abortRaw
        let metrics := buildMetrics out.finalAttempt out.hist (some finalError)
        ({ type := kindOfCode finalError.code, ok := false, data := none,
           error := some finalError, metrics := metrics },
         out.events ++ [Event.onFinally])

/-! The circuit breaker (breaker.ts). -/

/-- `CircuitState` (breaker.ts). -/
inductive CircuitState where
  | closed
  | open
  | halfOpen
deriving Repr, DecidableEq

/-- Circuit-breaker configuration (breaker.ts).  `resetTimeout` is in
clock units; `shouldCountAsFailure` optionally filters which errors
count. -/
structure BreakerCfg where
  failureThreshold : ℕ
  resetTimeout : ℚ
  halfOpenRequests : ℕ
  shouldCountAsFailure : Option (TypedErrorE → Bool) := none

/-- The breaker's internal state (breaker.ts). -/
structure BState where
  state : CircuitState
  failureCount : ℕ
  halfOpenCount : ℕ
  lastFailureTime : Option ℚ := none
  nextAttemptTime : Option ℚ := none
deriving Repr, DecidableEq

/-- The initial (closed) breaker state set by the constructor. -/
def initialBState : BState :=
  { state := CircuitState.closed, failureCount := 0, halfOpenCount := 0 }

/-- `updateStateIfNeeded` (breaker.ts): an `open` breaker whose
`nextAttemptTime` has passed moves to `half-open` with a reset probe
counter. -/
def updateStateIfNeeded (now : ℚ) (s : BState) : BState :=
  if s.state = CircuitState.open then
    match s.nextAttemptTime with
    | some t =>
        if now ≥ t then
          { s with state := CircuitState.halfOpen, halfOpenCount := 0 }
        else s
    | none => s
  else s

/-- `CircuitBreaker.canExecute` (breaker.ts): after the time-based
update, `open` rejects; `half-open` rejects when the probe count has
reached `halfOpenRequests` and otherwise consumes one probe; `closed`
admits. -/
def canExecute (cfg : BreakerCfg) (now : ℚ) (s : BState) : Bool × BState :=
  let s1 := updateStateIfNeeded now s
  if s1.state = CircuitState.open then (false, s1)
  else if s1.state = CircuitState.halfOpen then
    if s1.halfOpenCount ≥ cfg.halfOpenRequests then (false, s1)
    else (true, { s1 with halfOpenCount := s1.halfOpenCount + 1 })
  else (true, s1)

/-- `CircuitBreaker.recordSuccess` (breaker.ts). -/
def recordSuccess (s : BState) : BState :=
  match s.state with
  | CircuitState.closed => { s with failureCount := 0 }
  | CircuitState.halfOpen =>
      { state := CircuitState.closed, failureCount := 0, halfOpenCount := 0 }
  | CircuitState.open => s

/-- `CircuitBreaker.recordFailure` (breaker.ts): filtered by
`shouldCountAsFailure ?? true`; in `closed` it increments the
consecutive-failure count and opens at the threshold; in `half-open` it
reopens; in `open` it refreshes the failure/next-attempt times. -/
def recordFailure (cfg : BreakerCfg) (now : ℚ) (error : TypedErrorE)
    (s : BState) : BState :=
  let shouldCount :=
    match cfg.shouldCountAsFailure with
    | some p => p error
    | none => true
  if !shouldCount then s
  else
    match s.state with
    | CircuitState.closed =>
        let newFailureCount := s.failureCount + 1
        if newFailureCount ≥ cfg.failureThreshold then
          { state := CircuitState.open, failureCount := newFailureCount,
            halfOpenCount := 0, lastFailureTime := some now,
            nextAttemptTime := some (now + cfg.resetTimeout) }
        else
          { s with failureCount := newFailureCount,
                   lastFailureTime := some now }
    | CircuitState.halfOpen =>
        { state := CircuitState.open, failureCount := s.failureCount + 1,
          halfOpenCount := 0, lastFailureTime := some now,
          nextAttemptTime := some (now + cfg.resetTimeout) }
    | CircuitState.open =>
        { s with lastFailureTime := some now,
                 nextAttemptTime := some (now + cfg.resetTimeout) }

/-- `CircuitBreaker.createOpenError` (breaker.ts): a `CIRCUIT_OPEN`
typed error (`CircuitOpenError` sets `retryable: false`). -/
def circuitOpenError : TypedErrorE :=
  { code := "CIRCUIT_OPEN", retryable := false }

/-- The outcome of `TryoEngine.run` together with the breaker state and
whether the call was admitted past the breaker (a rejected call never
reaches `executeInternal`, hence never invokes the task). -/
structure RunOutcome (α : Type) where
  result : TryoResult α
  bstate : BState
  admitted : Bool
  events : List Event

/-- `TryoEngine.run` (tryo.ts) with a configured breaker: check
admission; on rejection return a synthetic `CIRCUIT_OPEN` failure with
empty metrics (`totalAttempts = 0`) without executing the task;
otherwise run `executeInternal` and then notify the breaker —
`recordSuccess` on ok, `recordFailure(result.error)` on every non-ok
result. -/
def engineRun {α : Type} (cfg : EngCfg) (bcfg : BreakerCfg) (now : ℚ)
    (env : TaskEnv α) (bs : BState) : RunOutcome α :=
  let adm := canExecute bcfg now bs
  if !adm.1 then
    { result :=
        { type := ResultType.failure, ok := false, data := none,
          error := some circuitOpenError,
          metrics := { totalAttempts := 0, totalRetries := 0,
                       lastError := none, retryHistory := [] } },
      bstate := adm.2, admitted := false, events := [] }
  else
    let r := executeInternal cfg env
    let bs2 :=
      if r.1.ok then recordSuccess adm.2
      else
        recordFailure bcfg now
          (match r.1.error with
           | some e => e
           | none => { code := "UNKNOWN", retryable := true }) adm.2
    { result := r.1, bstate := bs2, admitted := true, events := r.2 }

/-! The per-attempt timeout race (`runAttempt` in tryo.ts, lines around
`timeout ? withTimeout(p, timeout, …) : p`). -/

/-- How the task of one attempt behaves, relative to the configured
timeout window: it settles (fulfils or rejects) before any timer would
fire, or it hangs past every bound. -/
inductive TaskBehavior (α : Type) where
  | resolves (v : α)
  | rejects (raw : RawValue)
  | hangs
deriving Repr

/-- Whether `runAttempt` races the task against a timer: the source
tests `timeout ? … : …`, a JavaScript truthiness check, so an absent
timeout and a timeout of `0` both skip the race. -/
def usesTimeoutRace (timeout : Option ℚ) : Bool :=
  match timeout with
  | none => false
  | some t => t != 0

/-- The `TimeoutError` instance the race throws on fire (a `TypedError`
with code `TIMEOUT`, retryable by default). -/
def timeoutTypedError : TypedErrorE :=
  { code := "TIMEOUT", retryable := true }

/-- The settled outcome of one attempt under `runAttempt`'s branch:
with a race, a hanging task is resolved by the timer as a thrown
`TimeoutError`; without a race the attempt simply awaits the task, so a
hanging task never settles (`none`). -/
def runAttemptAwait {α : Type} (timeout : Option ℚ) (b : TaskBehavior α) :
    Option (α ⊕ RawValue) :=
  if usesTimeoutRace timeout then
    match b with
    | TaskBehavior.resolves v => some (Sum.inl v)
    | TaskBehavior.rejects raw => some (Sum.inr raw)
    | TaskBehavior.hangs =>
        some (Sum.inr (RawValue.typedErr timeoutTypedError))
  else
    match b with
    | TaskBehavior.resolves v => some (Sum.inl v)
    | TaskBehavior.rejects raw => some (Sum.inr raw)
    | TaskBehavior.hangs => none

/-! Engine construction (`tryo` / `TryoEngine`'s constructor,
`buildNormalizer` and `normalizeExecutionConfig` in tryo.ts). -/

/-- A user error rule as the engine receives it: the matcher plus the
`__tryoCode` static code the builders attach (`ErrorMapper.with` and
`ErrorRuleBuilder.toError` in error-builder.ts). -/
structure UserRule where
  matcher : RawValue → Option TypedErrorE
  tryoCode : Option String

/-- `RulesMode` (tryo.ts). -/
inductive RulesMode where
  | extend
  | replace
deriving Repr, DecidableEq

/-- The constructor options the model covers (`TryoOptions` in
tryo.ts). -/
structure TryoOptions where
  rules : List UserRule := []
  rulesMode : Option RulesMode := none
  toError : Option (RawValue → TypedErrorE) := none
  fallback : Option (RawValue → TypedErrorE) := none
  mapError : Option (TypedErrorE → TypedErrorE) := none
  timeout : Option ℚ := none
  retry : Option RetryCfg := none

/-- `buildNormalizer` (tryo.ts): a `toError` override wins; otherwise
chain the user rules (followed by the built-ins unless the mode is
`replace`) in front of the fallback.  The statically declared
`__tryoCode`s are never inspected here. -/
def buildNormalizer (opts : TryoOptions) : RawValue → TypedErrorE :=
  match opts.toError with
  | some f => f
  | none =>
      let userMatchers := opts.rules.map (·.matcher)
      let rules :=
        match opts.rulesMode with
        | some RulesMode.replace => userMatchers
        | _ => userMatchers ++ defaultRules
      let fb :=
        match opts.fallback with
        | some f => f
        | none => fallbackNormalizer
      runRules rules fb

/-- `normalizeExecutionConfig` (tryo.ts): validate the timeout through
`asMilliseconds` and, when a retry policy is present, run
`validateStrategy`, `validateJitter` (vacuous without jitter) and
`asRetryCount`. -/
def normalizeExecutionConfig (opts : TryoOptions) : Except String Unit := do
  match opts.timeout with
  | some t => discard (asMilliseconds t)
  | none => pure ()
  match opts.retry with
  | some r => do
      discard (validateStrategy r.strategy)
      discard (asRetryCount r.maxRetries)
  | none => pure ()

/-- The `TryoEngine` constructor (tryo.ts): build the normalizer and
validate the execution config.  No duplicate-code scan of the rules'
statically declared codes is performed anywhere on this path. -/
def tryoConstruct (opts : TryoOptions) : Except String EngCfg := do
  let normalizer := buildNormalizer opts
  discard (normalizeExecutionConfig opts)
  pure { preAborted := false, timeout := opts.timeout, retry := opts.retry,
         normalizer := normalizer, mapError := opts.mapError }

/-! Helpers for counting and ordering hook events. -/

/-- Number of events in `l` satisfying `p`. -/
def countEvents (p : Event → Bool) (l : List Event) : ℕ :=
  (l.filter p).length

/-- Is this an `onFinally` firing? -/
def finallyEv : Event → Bool
  | Event.onFinally => true
  | _ => false

/-- Is this an `onRetry` firing? -/
def retryEv : Event → Bool
  | Event.onRetry _ _ _ => true
  | _ => false

/-- Is this a retry sleep (completed or cancelled)? -/
def sleepEv : Event → Bool
  | Event.sleepOk _ => true
  | Event.sleepAborted _ => true
  | _ => false

/-- Every `onRetry` firing in the trace is immediately followed by a
retry sleep. -/
def retrySleepPaired : List Event → Bool
  | [] => true
  | Event.onRetry _ _ _ :: rest =>
      match rest with
      | e :: _ => sleepEv e && retrySleepPaired rest
      | [] => false
  | _ :: rest => retrySleepPaired rest

/-! Concrete fixtures used by the claim theorems. -/

/-- The normalized `ABORTED` error the built-in abort rule produces. -/
def abortedTypedError : TypedErrorE :=
  { code := "ABORTED", retryable := false }

/-- A raw HTTP 404 rejection: a plain object with numeric `status = 404`
(what an `HttpError` instance exposes to the `http` rule when thrown as
a bare status-carrying object). -/
def http404Raw : RawValue :=
  RawValue.plainObj (some 404) none

/-- A generic thrown `Error` (name `Error`), normalized to `UNKNOWN`. -/
def genericErrorRaw : RawValue :=
  RawValue.jsError "Error" "boom" none none

/-- Engine config for the non-retryable-404 scenario of the spec and of
tests/core_guardrails.test.ts: `maxRetries = 3`, fixed backoff, no
`shouldRetry`, default rules. -/
def cfg404 : EngCfg :=
  { preAborted := false,
    retry := some { maxRetries := 3, strategy := RetryStrategy.fixed 1,
                    shouldRetry := none },
    normalizer := defaultNormalizer }

/-- Environment where every attempt rejects with an HTTP 404 and no
retry sleep is cancelled. -/
def env404 : TaskEnv ℕ :=
  { attemptResult := fun _ => Sum.inr http404Raw,
    sleepAborted := fun _ => false }

/-- Engine config for the abort-during-retry-sleep scenarios:
`maxRetries = 3`, fixed backoff, no `shouldRetry`, default rules. -/
def cfgSleepAbort : EngCfg :=
  { preAborted := false,
    retry := some { maxRetries := 3, strategy := RetryStrategy.fixed 1,
                    shouldRetry := none },
    normalizer := defaultNormalizer }

/-- Environment where attempt 1 rejects with a generic error and the
outer signal fires during the first retry sleep. -/
def envSleepAbort : TaskEnv ℕ :=
  { attemptResult := fun _ => Sum.inr genericErrorRaw,
    sleepAborted := fun _ => true }

/-- First user rule of the duplicate-code scenario of
tests/rules_mode.test.ts: matches the thrown string "a", statically
declares code `DUPLICATE` (attached as `__tryoCode` by
`ErrorMapper.with`). -/
def dupRuleA : UserRule :=
  { matcher := fun v =>
      match v with
      | RawValue.strVal s =>
          if s == "a" then some { code := "DUPLICATE", retryable := true }
          else none
      | _ => none,
    tryoCode := some "DUPLICATE" }

/-- Second user rule of the duplicate-code scenario: matches the thrown
string "b", statically declares the same code `DUPLICATE`. -/
def dupRuleB : UserRule :=
  { matcher := fun v =>
      match v with
      | RawValue.strVal s =>
          if s == "b" then some { code := "DUPLICATE", retryable := true }
          else none
      | _ => none,
    tryoCode := some "DUPLICATE" }

/-- The constructor options of the duplicate-code scenario:
`rulesMode: 'replace'` with the two colliding rules. -/
def dupOptions : TryoOptions :=
  { rules := [dupRuleA, dupRuleB], rulesMode := some RulesMode.replace }

/-- Engine config throwing an `AbortError` from the task itself, with a
generous retry budget and an always-true `shouldRetry`, to exercise the
unconditional `ABORTED` stop. -/
def cfgAbortTask : EngCfg :=
  { preAborted := false, ignoreAbort := false,
    retry := some { maxRetries := 5, strategy := RetryStrategy.fixed 1,
                    shouldRetry := some (fun _ _ _ => true) },
    normalizer := defaultNormalizer }

/-- Environment where every attempt rejects with a `DOMException` named
`AbortError`. -/
def envAbortTask : TaskEnv ℕ :=
  { attemptResult := fun _ => Sum.inr abortRaw,
    sleepAborted := fun _ => false }

/-- A config with a pre-cancelled outer signal (the caller's controller
aborted before `run`). -/
def cfgPreAborted : EngCfg :=
  { preAborted := true, normalizer := defaultNormalizer }

/-- A small breaker configuration: threshold 2, reset 50, one half-open
probe. -/
def bcfgSmall : BreakerCfg :=
  { failureThreshold := 2, resetTimeout := 50, halfOpenRequests := 1 }

/-- A half-open breaker state whose single probe is already consumed. -/
def bsProbeSpent : BState :=
  { state := CircuitState.halfOpen, failureCount := 2, halfOpenCount := 1 }

/-- A half-open breaker state with its probe budget still available. -/
def bsProbeFree : BState :=
  { state := CircuitState.halfOpen, failureCount := 2, halfOpenCount := 0 }

/-- Retry policy with a user-supplied always-true `shouldRetry`, for the
cancelled-second-sleep scenario. -/
def rcSleepAbort2 : RetryCfg :=
  { maxRetries := 3, strategy := RetryStrategy.fixed 1,
    shouldRetry := some (fun _ _ _ => true) }

/-- Engine config for the cancelled-second-sleep scenario: a retry
policy with a `shouldRetry` predicate supplied. -/
def cfgSleepAbort2 : EngCfg :=
  { preAborted := false, retry := some rcSleepAbort2,
    normalizer := defaultNormalizer }

/-- Environment where every attempt rejects with a generic error and
the outer signal fires during the SECOND retry sleep. -/
def envSleepAbort2 : TaskEnv ℕ :=
  { attemptResult := fun _ => Sum.inr genericErrorRaw,
    sleepAborted := fun k => k == 2 }

/-- The retry history after attempt 1 of the cancelled-second-sleep
scenario (one `UNKNOWN` entry with the fixed delay). -/
def hist1SleepAbort2 : List RetryEntry :=
  [{ attempt := 1, error := { code := "UNKNOWN", retryable := true },
     delay := 1 }]

/-! Supporting lemmas. -/

/-- The loop body of the source's `fibonacci` helper advances along the
Fibonacci sequence. -/
theorem fibLoop_fib (k : ℕ) :
    ∀ m : ℕ, fibLoop k (Nat.fib (m + 1)) (Nat.fib (m + 2)) =
      Nat.fib (m + 2 + k) := by
  induction k with
  | zero => intro m; rfl
  | succ k ih =>
      intro m
      have h3 : Nat.fib (m + 1) + Nat.fib (m + 2) = Nat.fib (m + 3) := by
        have h := Nat.fib_add_two (n := m + 1)
        have e1 : m + 1 + 2 = m + 3 := by omega
        have e2 : m + 1 + 1 = m + 2 := by omega
        rw [e1, e2] at h
        omega
      calc fibLoop (k + 1) (Nat.fib (m + 1)) (Nat.fib (m + 2))
          = fibLoop k (Nat.fib (m + 2)) (Nat.fib (m + 1) + Nat.fib (m + 2)) :=
            rfl
        _ = fibLoop k (Nat.fib (m + 2)) (Nat.fib (m + 3)) := by rw [h3]
        _ = Nat.fib (m + 1 + 2 + k) := ih (m + 1)
        _ = Nat.fib (m + 2 + (k + 1)) := by ring_nf

/-- The source's `fibonacci` helper computes the Fibonacci sequence
shifted by one: `fib(1) = 1`, `fib(2) = 2`, `fib(3) = 3`, `fib(4) = 5`. -/
theorem fibCode_eq_fib (n : ℕ) : fibCode n = Nat.fib (n + 1) := by
  unfold fibCode
  by_cases h : n ≤ 1
  · interval_cases n <;> simp
  · have h2 : 2 ≤ n := by omega
    rw [if_neg h]
    have := fibLoop_fib (n - 1) 0
    simp only [Nat.zero_add] at this
    have h1 : (Nat.fib 1 : ℕ) = 1 := by simp
    have hfib2 : (Nat.fib 2 : ℕ) = 1 := by simp
    rw [← h1, ← hfib2] at *
    calc fibLoop (n - 1) (Nat.fib 1) (Nat.fib 2) = Nat.fib (2 + (n - 1)) :=
          this
      _ = Nat.fib (n + 1) := by congr 1; omega

/-- C4 counterexample: the claim predicts `min(base × F(attempt), cap)`
with `F(1) = F(2) = 1`, so for the fibonacci strategy with base 100 and
no cap the base delay computed for attempt 2 would be `100 × F(2) = 100`;
`calculateDelay` actually returns `200`. -/
theorem c4_counterexample :
    calculateDelay (RetryStrategy.fibonacci 100 none) 2 timeoutTypedError =
      200 ∧
    ¬ calculateDelay (RetryStrategy.fibonacci 100 none) 2 timeoutTypedError =
        100 * (Nat.fib 2 : ℚ) := by
  constructor <;> norm_num [calculateDelay, fibCode, fibLoop]

/-- C4 (amended): for every fibonacci strategy with base `b` and
optional cap, `calculateDelay` at attempt `n` returns
`min(b × F(n + 1), cap)` where `F` is the Fibonacci sequence with
`F(1) = F(2) = 1` — i.e. the source's helper is shifted by one, so the
base delay computed for attempt 2 equals `b × 2`, not `b × 1` (and a
cap of 0 applies no clamping, per the source's truthiness test). -/
theorem c4_fibonacci_delay (b : ℚ) (cap : Option ℚ) (n : ℕ)
    (e : TypedErrorE) :
    calculateDelay (RetryStrategy.fibonacci b cap) n e =
      (match cap with
       | some c =>
           if c == 0 then b * (Nat.fib (n + 1) : ℚ)
           else min (b * (Nat.fib (n + 1) : ℚ)) c
       | none => b * (Nat.fib (n + 1) : ℚ)) := by
  simp only [calculateDelay, fibCode_eq_fib]

/-- C10: a per-attempt timeout of 0 milliseconds passes validation
(`asMilliseconds` accepts 0, `normalizeExecutionConfig` keeps it) but
disables the timeout: `runAttempt`'s truthiness branch skips the race,
so the attempt behaves exactly as with no timeout — a hanging task never
settles — whereas a positive timeout resolves a hanging task with a
thrown `TimeoutError`. -/
theorem c10_zero_timeout :
    asMilliseconds 0 = Except.ok 0 ∧
    normalizeExecutionConfig { timeout := some 0 } = Except.ok () ∧
    (∀ b : TaskBehavior ℕ, runAttemptAwait (some 0) b = runAttemptAwait none b) ∧
    runAttemptAwait (some 0) (TaskBehavior.hangs : TaskBehavior ℕ) = none ∧
    runAttemptAwait (some 5) (TaskBehavior.hangs : TaskBehavior ℕ) =
      some (Sum.inr (RawValue.typedErr timeoutTypedError)) := by
  refine ⟨rfl, rfl, ?_, ?_, ?_⟩
  · intro b
    cases b <;> simp [runAttemptAwait, usesTimeoutRace]
  · simp [runAttemptAwait, usesTimeoutRace]
  · simp [runAttemptAwait, usesTimeoutRace]

/-- C3: constructing an engine whose merged rule list contains two rules
that statically declare the same code (`__tryoCode = "DUPLICATE"` on
both, as in tests/rules_mode.test.ts) does NOT throw: `buildNormalizer`
and the `TryoEngine` constructor never inspect the statically declared
codes, so construction succeeds where the claim (and the repository's
own tests) require a duplicate-code diagnostic. -/
theorem c3_code_evaluation :
    dupRuleA.tryoCode = some "DUPLICATE" ∧
    dupRuleB.tryoCode = some "DUPLICATE" ∧
    (tryoConstruct dupOptions).isOk = true := by
  exact ⟨rfl, rfl, rfl⟩

/-- C1: with `maxRetries = 3`, no `shouldRetry`, and a task that always
throws an HTTP 404 — normalized by the built-in `http` rule to code
`HTTP` with `retryable = false` — the engine does NOT stop after the
first attempt: the retry decision never consults the `retryable` flag,
so it performs 3 retries and reports `totalAttempts = 4`, where the
claim (and tests/core_guardrails.test.ts) require `totalAttempts = 1`. -/
theorem c1_code_evaluation :
    defaultNormalizer http404Raw =
      { code := "HTTP", retryable := false, status := some 404 } ∧
    (executeInternal cfg404 env404).1.metrics.totalAttempts = 4 ∧
    (executeInternal cfg404 env404).1.metrics.retryHistory.length = 3 ∧
    (executeInternal cfg404 env404).1.error =
      some { code := "HTTP", retryable := false, status := some 404 } := by
  decide

/-- C5 counterexample: with `maxRetries = 3` and attempt 1 rejecting
with a generic error (normalized `UNKNOWN`), an outer cancellation
during the first retry sleep makes the run return a `failure` result
carrying the attempt's `UNKNOWN` error — not the `aborted` result with
`error.code = 'ABORTED'` the claim requires. -/
theorem c5_counterexample :
    (executeInternal cfgSleepAbort envSleepAbort).1.type =
      ResultType.failure ∧
    ¬ (executeInternal cfgSleepAbort envSleepAbort).1.type =
        ResultType.aborted ∧
    (executeInternal cfgSleepAbort envSleepAbort).1.error =
      some { code := "UNKNOWN", retryable := true } ∧
    (executeInternal cfgSleepAbort envSleepAbort).1.metrics.totalAttempts =
      1 := by
  decide

/-- C6 counterexample: on the abort-during-retry-sleep terminal path the
retry history already holds the entry for the sleep that was cancelled,
so `retryHistory.length = 1` while `totalRetries = max(0,
totalAttempts − 1) = 0`, violating `retryHistory.length = totalRetries`. -/
theorem c6_counterexample :
    (executeInternal cfgSleepAbort envSleepAbort).1.metrics.totalRetries =
      0 ∧
    (executeInternal cfgSleepAbort
        envSleepAbort).1.metrics.retryHistory.length = 1 ∧
    ¬ (executeInternal cfgSleepAbort
          envSleepAbort).1.metrics.retryHistory.length =
        (executeInternal cfgSleepAbort
            envSleepAbort).1.metrics.totalRetries := by
  decide

/-- C8 counterexample: a `run` call whose outer signal is already
cancelled before the first attempt returns from the pre-aborted early
path, which fires `onAbort` but never `onFinally` — zero firings, where
the claim requires exactly one. -/
theorem c8_counterexample :
    countEvents finallyEv (executeInternal cfgPreAborted env404).2 = 0 ∧
    ¬ countEvents finallyEv (executeInternal cfgPreAborted env404).2 = 1 := by
  decide

/-- Event counts distribute over trace concatenation. -/
theorem countEvents_append (p : Event → Bool) (xs ys : List Event) :
    countEvents p (xs ++ ys) = countEvents p xs + countEvents p ys := by
  simp [countEvents, List.filter_append]

/-- A non-`onRetry` head does not affect the retry/sleep pairing. -/
theorem paired_skip (e : Event) (h : retryEv e = false) (l : List Event) :
    retrySleepPaired (e :: l) = retrySleepPaired l := by
  cases e <;> first
    | rfl
    | simp [retryEv] at h

/-- `onAbort` heads do not affect the pairing. -/
theorem paired_cons_onAbort (l : List Event) :
    retrySleepPaired (Event.onAbort :: l) = retrySleepPaired l := rfl

/-- `onError` heads do not affect the pairing. -/
theorem paired_cons_onError (m : TypedErrorE) (l : List Event) :
    retrySleepPaired (Event.onError m :: l) = retrySleepPaired l := rfl

/-- `onSuccess` heads do not affect the pairing. -/
theorem paired_cons_onSuccess (l : List Event) :
    retrySleepPaired (Event.onSuccess :: l) = retrySleepPaired l := rfl

/-- `onFinally` heads do not affect the pairing. -/
theorem paired_cons_onFinally (l : List Event) :
    retrySleepPaired (Event.onFinally :: l) = retrySleepPaired l := rfl

/-- Completed-sleep heads do not affect the pairing. -/
theorem paired_cons_sleepOk (d : ℚ) (l : List Event) :
    retrySleepPaired (Event.sleepOk d :: l) = retrySleepPaired l := rfl

/-- Cancelled-sleep heads do not affect the pairing. -/
theorem paired_cons_sleepAborted (d : ℚ) (l : List Event) :
    retrySleepPaired (Event.sleepAborted d :: l) = retrySleepPaired l := rfl

/-- An `onRetry` head demands a sleep event right after it. -/
theorem paired_cons_onRetry (a : ℕ) (m : TypedErrorE) (d : ℚ) (e : Event)
    (l : List Event) :
    retrySleepPaired (Event.onRetry a m d :: e :: l) =
      (sleepEv e && retrySleepPaired (e :: l)) := rfl

/-- A retry-free prefix does not affect the retry/sleep pairing. -/
theorem paired_append_noretry (xs ys : List Event)
    (h : ∀ e ∈ xs, retryEv e = false) :
    retrySleepPaired (xs ++ ys) = retrySleepPaired ys := by
  induction xs with
  | nil => rfl
  | cons e rest ih =>
      rw [List.cons_append, paired_skip e (h e (by simp)),
        ih (fun x hx => h x (by simp [hx]))]

/-- Attempt-loop invariants: starting attempt `a` with a history of
`a - 1` in-order entries, the loop emits no `onFinally`, emits exactly
one `onRetry` per history entry it appends, pairs every `onRetry` with
an immediately following sleep, keeps the history in attempt order, and
— when no retry sleep is cancelled — exits with
`finalAttempt = history length + 1`. -/
theorem runAttemptGo_invariants {α : Type} (cfg : EngCfg) (env : TaskEnv α) :
    ∀ (fuel attempt : ℕ) (hist : List RetryEntry),
      attempt = hist.length + 1 →
      hist.map (fun en => en.attempt) =
        (List.range hist.length).map (fun i => i + 1) →
      countEvents finallyEv (runAttemptGo cfg env fuel attempt hist).events
          = 0 ∧
      countEvents retryEv (runAttemptGo cfg env fuel attempt hist).events +
          hist.length = (runAttemptGo cfg env fuel attempt hist).hist.length ∧
      (∀ tail, retrySleepPaired
          ((runAttemptGo cfg env fuel attempt hist).events ++ tail) =
        retrySleepPaired tail) ∧
      (runAttemptGo cfg env fuel attempt hist).hist.map
          (fun en => en.attempt) =
        (List.range (runAttemptGo cfg env fuel attempt hist).hist.length).map
          (fun i => i + 1) ∧
      ((∀ k, env.sleepAborted k = false) →
        (runAttemptGo cfg env fuel attempt hist).finalAttempt =
          (runAttemptGo cfg env fuel attempt hist).hist.length + 1) := by
  intro fuel
  induction fuel with
  | zero =>
      intro attempt hist h1 h2
      simp only [runAttemptGo]
      refine ⟨rfl, by simp [countEvents], fun tail => rfl, h2, fun _ => h1⟩
  | succ fuel ih =>
      intro attempt hist h1 h2
      simp only [runAttemptGo]
      cases henv : env.attemptResult attempt with
      | inl v =>
          refine ⟨rfl, by simp [countEvents, retryEv], ?_, h2, fun _ => h1⟩
          intro tail
          simp only [List.singleton_append, paired_cons_onSuccess]
      | inr raw =>
          cases hc : (normMap cfg raw).code == "ABORTED" with
          | true =>
              simp only [hc]
              cases hig : cfg.ignoreAbort <;>
                simp only [Bool.true_and, Bool.false_and, Bool.not_false,
                  Bool.not_true, if_true, if_false, Bool.and_true,
                  Bool.and_false] <;>
                refine ⟨by simp [countEvents, finallyEv],
                  by simp [countEvents, retryEv], ?_, h2, fun _ => h1⟩ <;>
                intro tail <;>
                simp [paired_cons_onAbort, paired_cons_onError]
          | false =>
              simp only [hc, Bool.and_false, Bool.not_false, if_true,
                Bool.false_eq_true, if_false]
              by_cases hle : attempt ≤ cfgMaxRetries cfg
              · rw [if_pos hle]
                cases hdr :
                    (match cfg.retry with
                     | some r =>
                         match r.shouldRetry with
                         | some p => p attempt (normMap cfg raw)
                             { totalAttempts := attempt,
                               lastDelay := lastDelayOf hist }
                         | none => true
                     | none => true) with
                | false =>
                    simp only [hdr, Bool.false_eq_true, if_false]
                    refine ⟨by simp [countEvents, finallyEv],
                      by simp [countEvents, retryEv], ?_, h2, fun _ => h1⟩
                    intro tail
                    simp only [List.append_assoc, List.cons_append,
                      List.singleton_append, List.nil_append,
                      paired_cons_onError]
                | true =>
                    simp only [hdr, if_true]
                    cases hsa : env.sleepAborted attempt with
                    | true =>
                        simp only [hsa, if_true]
                        refine ⟨by simp [countEvents, finallyEv],
                          ?_, ?_, ?_, ?_⟩
                        · simp only [countEvents, List.filter, retryEv,
                            finallyEv]
                          simp
                          omega
                        · intro tail
                          simp only [List.append_assoc, List.cons_append,
                            List.singleton_append, List.nil_append,
                            paired_cons_onError, paired_cons_onRetry,
                            paired_cons_sleepAborted, sleepEv, Bool.true_and]
                        · simp only [List.map_append, h2, List.length_append,
                            List.length_map, h1, List.length_singleton]
                          simp [List.range_succ]
                        · intro hall
                          rw [hall attempt] at hsa
                          cases hsa
                    | false =>
                        simp only [hsa, Bool.false_eq_true, if_false]
                        obtain ⟨ihF, ihR, ihP, ihM, ihA⟩ :=
                          ih (attempt + 1) (hist ++
                            [{ attempt := attempt, error := normMap cfg raw,
                               delay :=
                                 match cfg.retry with
                                 | some r =>
                                     calculateDelay r.strategy attempt
                                       (normMap cfg raw)
                                 | none => 0 }])
                            (by simp [h1])
                            (by
                              simp only [List.map_append, h2, h1,
                                List.length_append, List.length_map,
                                List.length_singleton]
                              simp [List.range_succ])
                        refine ⟨?_, ?_, ?_, ?_, ?_⟩
                        · rw [countEvents_append]
                          simpa [countEvents, finallyEv] using ihF
                        · rw [countEvents_append]
                          simp only [List.length_append,
                            List.length_singleton] at ihR
                          simp only [countEvents, List.filter, retryEv,
                            finallyEv] at ihR ⊢
                          simp at ihR ⊢
                          omega
                        · intro tail
                          simp only [List.append_assoc, List.cons_append,
                            List.singleton_append, List.nil_append,
                            paired_cons_onError, paired_cons_onRetry,
                            paired_cons_sleepOk, sleepEv, Bool.true_and]
                          exact ihP tail
                        · exact ihM
                        · exact ihA
              · rw [if_neg hle]
                refine ⟨by simp [countEvents, finallyEv],
                  by simp [countEvents, retryEv], ?_, h2, fun _ => h1⟩
                intro tail
                simp only [List.append_assoc, List.cons_append,
                  List.singleton_append, List.nil_append,
                  paired_cons_onError]

/-- Once an attempt's mapped error has code `ABORTED`, the loop throws it
at once: no retry sleep, no `onRetry`, no history entry, no further
attempt — regardless of `maxRetries`, `shouldRetry` or `retryable`. -/
theorem runAttemptGo_aborted {α : Type} (cfg : EngCfg) (env : TaskEnv α)
    (fuel attempt : ℕ) (hist : List RetryEntry) (raw : RawValue)
    (hres : env.attemptResult attempt = Sum.inr raw)
    (hcode : (normMap cfg raw).code = "ABORTED") :
    runAttemptGo cfg env (fuel + 1) attempt hist =
      { exit := LoopExit.thrown (normMap cfg raw), finalAttempt := attempt,
        hist := hist,
        events := Event.onAbort ::
          (if cfg.ignoreAbort then [] else [Event.onError (normMap cfg raw)]),
        lastError := some (normMap cfg raw) } := by
  have hbeq : ((normMap cfg raw).code == "ABORTED") = true := by
    simp [hcode]
  simp only [runAttemptGo, hres, hbeq]
  cases hig : cfg.ignoreAbort <;> simp

/-- C2: once an attempt's normalized (and `mapError`-mapped) error has
code `ABORTED`, the engine performs no retry sleep and starts no further
attempt — regardless of `maxRetries`, the `shouldRetry` predicate, or
the error's `retryable` flag — and the run terminates with that error as
an `aborted` result. -/
theorem c2_aborted_never_retried :
    (∀ (α : Type) (cfg : EngCfg) (env : TaskEnv α) (fuel attempt : ℕ)
        (hist : List RetryEntry) (raw : RawValue),
      env.attemptResult attempt = Sum.inr raw →
      (normMap cfg raw).code = "ABORTED" →
      runAttemptGo cfg env (fuel + 1) attempt hist =
        { exit := LoopExit.thrown (normMap cfg raw), finalAttempt := attempt,
          hist := hist,
          events := Event.onAbort ::
            (if cfg.ignoreAbort then []
             else [Event.onError (normMap cfg raw)]),
          lastError := some (normMap cfg raw) }) ∧
    (∀ (α : Type) (cfg : EngCfg) (env : TaskEnv α) (raw : RawValue),
      cfg.preAborted = false →
      env.attemptResult 1 = Sum.inr raw →
      (normMap cfg raw).code = "ABORTED" →
      (executeInternal cfg env).1.type = ResultType.aborted ∧
      (executeInternal cfg env).1.error = some (normMap cfg raw) ∧
      (executeInternal cfg env).1.metrics.totalAttempts = 1 ∧
      (executeInternal cfg env).1.metrics.retryHistory = []) := by
  constructor
  · intro α cfg env fuel attempt hist raw hres hcode
    exact runAttemptGo_aborted cfg env fuel attempt hist raw hres hcode
  · intro α cfg env raw hpre hres hcode
    have h := runAttemptGo_aborted cfg env (cfgMaxRetries cfg) 1 [] raw
      hres hcode
    simp only [executeInternal, hpre, Bool.false_eq_true, if_false, h]
    simp [kindOfCode, buildMetrics, hcode]

/-- C2 witness: a task throwing a `DOMException` named `AbortError`
under `maxRetries = 5` and an always-true `shouldRetry` still terminates
on attempt 1 with an `aborted` result. -/
theorem c2_aborted_never_retried_witness :
    (executeInternal cfgAbortTask envAbortTask).1.type =
      ResultType.aborted ∧
    (executeInternal cfgAbortTask envAbortTask).1.error =
      some (normMap cfgAbortTask abortRaw) ∧
    (executeInternal cfgAbortTask envAbortTask).1.metrics.totalAttempts =
      1 ∧
    (executeInternal cfgAbortTask envAbortTask).1.metrics.retryHistory =
      [] :=
  c2_aborted_never_retried.2 ℕ cfgAbortTask envAbortTask abortRaw rfl rfl
    rfl

/-- C6 (amended): for every result of `run`, `totalRetries =
max(0, totalAttempts − 1)` and the retry-history entries are in attempt
order; `retryHistory.length = totalRetries` holds on every terminal path
on which no retry sleep is cancelled — when the outer signal aborts a
retry sleep, the history keeps the entry of the cancelled sleep and its
length is `totalRetries + 1` (see the counterexample). -/
theorem c6_metrics_invariant :
    ∀ (α : Type) (cfg : EngCfg) (env : TaskEnv α),
      (executeInternal cfg env).1.metrics.totalRetries =
        (executeInternal cfg env).1.metrics.totalAttempts - 1 ∧
      (executeInternal cfg env).1.metrics.retryHistory.map
          (fun en => en.attempt) =
        (List.range
            (executeInternal cfg env).1.metrics.retryHistory.length).map
          (fun i => i + 1) ∧
      ((∀ k, env.sleepAborted k = false) →
        (executeInternal cfg env).1.metrics.retryHistory.length =
          (executeInternal cfg env).1.metrics.totalRetries) := by
  intro α cfg env
  by_cases hpre : cfg.preAborted
  · simp [executeInternal, hpre]
  · have hpre2 : cfg.preAborted = false := by simpa using hpre
    obtain ⟨-, -, -, hM, hA⟩ :=
      runAttemptGo_invariants cfg env (cfgMaxRetries cfg + 1) 1 [] rfl
        (by simp)
    cases hexit : (runAttemptGo cfg env (cfgMaxRetries cfg + 1) 1 []).exit
      with
    | success v =>
        simp only [executeInternal, hpre2, Bool.false_eq_true, if_false,
          hexit, buildMetrics]
        refine ⟨by split <;> omega, hM, ?_⟩
        intro hall
        have h5 := hA hall
        split <;> omega
    | thrown e =>
        simp only [executeInternal, hpre2, Bool.false_eq_true, if_false,
          hexit, buildMetrics]
        refine ⟨by split <;> omega, hM, ?_⟩
        intro hall
        have h5 := hA hall
        split <;> omega
    | sleepAbort =>
        simp only [executeInternal, hpre2, Bool.false_eq_true, if_false,
          hexit, buildMetrics]
        refine ⟨by split <;> omega, hM, ?_⟩
        intro hall
        have h5 := hA hall
        split <;> omega

/-- C6 witness: the 404 scenario (4 attempts, no cancelled sleep)
satisfies both metric equations. -/
theorem c6_metrics_invariant_witness :
    (executeInternal cfg404 env404).1.metrics.totalRetries =
      (executeInternal cfg404 env404).1.metrics.totalAttempts - 1 ∧
    (executeInternal cfg404 env404).1.metrics.retryHistory.length =
      (executeInternal cfg404 env404).1.metrics.totalRetries :=
  ⟨(c6_metrics_invariant ℕ cfg404 env404).1,
   (c6_metrics_invariant ℕ cfg404 env404).2.2 (fun _ => rfl)⟩

/-- C8 (amended): `onFinally` fires exactly once on every `run` call
that is admitted by the breaker and whose outer signal is not already
cancelled before the first attempt; on breaker-rejected calls and on
pre-cancelled calls it fires zero times (see the counterexample).
`onRetry` fires exactly `retryHistory.length` times (which equals
`totalRetries` except on the cancelled-sleep path) and each firing is
immediately followed by a retry sleep. -/
theorem c8_hooks_per_call :
    ∀ (α : Type) (cfg : EngCfg) (env : TaskEnv α),
      (cfg.preAborted = false →
        countEvents finallyEv (executeInternal cfg env).2 = 1 ∧
        countEvents retryEv (executeInternal cfg env).2 =
          (executeInternal cfg env).1.metrics.retryHistory.length ∧
        retrySleepPaired (executeInternal cfg env).2 = true) ∧
      (cfg.preAborted = true →
        countEvents finallyEv (executeInternal cfg env).2 = 0) ∧
      (∀ (bcfg : BreakerCfg) (now : ℚ) (bs : BState),
        (canExecute bcfg now bs).1 = false →
        (engineRun cfg bcfg now env bs).events = []) := by
  intro α cfg env
  refine ⟨?_, ?_, ?_⟩
  · intro hpre
    obtain ⟨hF, hR, hP, -, -⟩ :=
      runAttemptGo_invariants cfg env (cfgMaxRetries cfg + 1) 1 [] rfl
        (by simp)
    cases hexit : (runAttemptGo cfg env (cfgMaxRetries cfg + 1) 1 []).exit
      with
    | success v =>
        simp only [executeInternal, hpre, Bool.false_eq_true, if_false,
          hexit, buildMetrics]
        refine ⟨?_, ?_, ?_⟩
        · rw [countEvents_append, hF]
          rfl
        · rw [countEvents_append]
          simpa [countEvents, retryEv, finallyEv] using hR
        · rw [hP [Event.onFinally]]
          rfl
    | thrown e =>
        simp only [executeInternal, hpre, Bool.false_eq_true, if_false,
          hexit, buildMetrics]
        refine ⟨?_, ?_, ?_⟩
        · rw [countEvents_append, hF]
          rfl
        · rw [countEvents_append]
          simpa [countEvents, retryEv, finallyEv] using hR
        · rw [hP [Event.onFinally]]
          rfl
    | sleepAbort =>
        simp only [executeInternal, hpre, Bool.false_eq_true, if_false,
          hexit, buildMetrics]
        refine ⟨?_, ?_, ?_⟩
        · rw [countEvents_append, hF]
          rfl
        · rw [countEvents_append]
          simpa [countEvents, retryEv, finallyEv] using hR
        · rw [hP [Event.onFinally]]
          rfl
  · intro hpre
    simp [executeInternal, hpre, countEvents, finallyEv]
  · intro bcfg now bs hcan
    simp [engineRun, hcan]

/-- C8 witness: the 404 scenario fires `onFinally` once with three
`onRetry` firings each before a sleep; a pre-cancelled call fires it
zero times; a breaker-rejected call emits no events at all. -/
theorem c8_hooks_per_call_witness :
    countEvents finallyEv (executeInternal cfg404 env404).2 = 1 ∧
    retrySleepPaired (executeInternal cfg404 env404).2 = true ∧
    countEvents finallyEv (executeInternal cfgPreAborted env404).2 = 0 ∧
    (engineRun cfgPreAborted bcfgSmall 0 env404 bsProbeSpent).events =
      [] :=
  ⟨((c8_hooks_per_call ℕ cfg404 env404).1 rfl).1,
   ((c8_hooks_per_call ℕ cfg404 env404).1 rfl).2.2,
   (c8_hooks_per_call ℕ cfgPreAborted env404).2.1 rfl,
   (c8_hooks_per_call ℕ cfgPreAborted env404).2.2 bcfgSmall 0 bsProbeSpent
     (by decide)⟩

/-- C5 (amended): when the outer signal fires during a retry sleep the
call terminates immediately — no further attempt is started — but the
result carries the *last attempt's* normalized error (`finalError =
lastError ?? normalizer(err)` prefers the stored `lastError` over the
sleep's `AbortError`), so its type derives from that error's code and
is `failure` (or `timeout`), not `aborted` (see the counterexample).
Part 1 is loop-level and universal: at ANY attempt, with ANY
accumulated history and ANY `shouldRetry` outcome that allowed the
retry, a cancelled sleep ends the loop right there, with the mapped
error stored and no later attempt. Part 2 is result-level and
universal: ANY run whose attempt loop ends in a cancelled sleep returns
the stored last error, with the type derived from its code,
`totalAttempts` frozen at the loop's final attempt, and the history and
events exactly those of the loop. -/
theorem c5_sleep_abort_terminates :
    (∀ (α : Type) (cfg : EngCfg) (env : TaskEnv α) (rc : RetryCfg)
        (fuel attempt : ℕ) (hist : List RetryEntry) (raw : RawValue),
      cfg.retry = some rc →
      env.attemptResult attempt = Sum.inr raw →
      ((normMap cfg raw).code == "ABORTED") = false →
      attempt ≤ rc.maxRetries →
      (match rc.shouldRetry with
       | some p => p attempt (normMap cfg raw)
           { totalAttempts := attempt, lastDelay := lastDelayOf hist }
       | none => true) = true →
      env.sleepAborted attempt = true →
      runAttemptGo cfg env (fuel + 1) attempt hist =
        { exit := LoopExit.sleepAbort, finalAttempt := attempt,
          hist := hist ++
            [{ attempt := attempt, error := normMap cfg raw,
               delay :=
                 calculateDelay rc.strategy attempt (normMap cfg raw) }],
          events := [Event.onError (normMap cfg raw),
            Event.onRetry attempt (normMap cfg raw)
              (calculateDelay rc.strategy attempt (normMap cfg raw)),
            Event.sleepAborted
              (calculateDelay rc.strategy attempt (normMap cfg raw))],
          lastError := some (normMap cfg raw) }) ∧
    (∀ (α : Type) (cfg : EngCfg) (env : TaskEnv α) (e : TypedErrorE),
      cfg.preAborted = false →
      (runAttemptGo cfg env (cfgMaxRetries cfg + 1) 1 []).exit =
        LoopExit.sleepAbort →
      (runAttemptGo cfg env (cfgMaxRetries cfg + 1) 1 []).lastError =
        some e →
      (executeInternal cfg env).1.type = kindOfCode e.code ∧
      (executeInternal cfg env).1.error = some e ∧
      (executeInternal cfg env).1.metrics.totalAttempts =
        (runAttemptGo cfg env (cfgMaxRetries cfg + 1) 1 []).finalAttempt ∧
      (executeInternal cfg env).1.metrics.retryHistory =
        (runAttemptGo cfg env (cfgMaxRetries cfg + 1) 1 []).hist ∧
      (executeInternal cfg env).2 =
        (runAttemptGo cfg env (cfgMaxRetries cfg + 1) 1 []).events ++
          [Event.onFinally]) := by
  constructor
  · intro α cfg env rc fuel attempt hist raw hrc hres hcode hle hdr hslp
    have hle2 : attempt ≤ cfgMaxRetries cfg := by
      simpa [cfgMaxRetries, hrc] using hle
    simp only [runAttemptGo, hres, hcode, Bool.false_eq_true, if_false,
      Bool.and_false, Bool.not_false, if_true, cfgMaxRetries, hrc]
    rw [if_pos hle]
    simp only [hdr, if_true, hslp]
    simp
  · intro α cfg env e hpre hexit hlast
    simp only [executeInternal, hpre, Bool.false_eq_true, if_false,
      hexit, hlast, buildMetrics]
    simp [kindOfCode, buildMetrics]

/-- C5 witness: every attempt throws a generic error (`UNKNOWN`), a
`shouldRetry` predicate is supplied and returns true, and the outer
signal fires during the SECOND retry sleep; the loop ends at attempt 2
with the second history entry recorded, and the run returns a `failure`
carrying the `UNKNOWN` error with `totalAttempts` frozen at the loop's
final attempt. -/
theorem c5_sleep_abort_terminates_witness :
    runAttemptGo cfgSleepAbort2 envSleepAbort2 3 2 hist1SleepAbort2 =
      { exit := LoopExit.sleepAbort, finalAttempt := 2,
        hist := hist1SleepAbort2 ++
          [{ attempt := 2, error := normMap cfgSleepAbort2 genericErrorRaw,
             delay := calculateDelay rcSleepAbort2.strategy 2
               (normMap cfgSleepAbort2 genericErrorRaw) }],
        events := [Event.onError (normMap cfgSleepAbort2 genericErrorRaw),
          Event.onRetry 2 (normMap cfgSleepAbort2 genericErrorRaw)
            (calculateDelay rcSleepAbort2.strategy 2
              (normMap cfgSleepAbort2 genericErrorRaw)),
          Event.sleepAborted
            (calculateDelay rcSleepAbort2.strategy 2
              (normMap cfgSleepAbort2 genericErrorRaw))],
        lastError := some (normMap cfgSleepAbort2 genericErrorRaw) } ∧
    (executeInternal cfgSleepAbort2 envSleepAbort2).1.type =
      kindOfCode
        ({ code := "UNKNOWN", retryable := true } : TypedErrorE).code ∧
    (executeInternal cfgSleepAbort2 envSleepAbort2).1.error =
      some { code := "UNKNOWN", retryable := true } ∧
    (executeInternal cfgSleepAbort2 envSleepAbort2).1.metrics.totalAttempts =
      (runAttemptGo cfgSleepAbort2 envSleepAbort2
        (cfgMaxRetries cfgSleepAbort2 + 1) 1 []).finalAttempt ∧
    (executeInternal cfgSleepAbort2 envSleepAbort2).1.metrics.retryHistory =
      (runAttemptGo cfgSleepAbort2 envSleepAbort2
        (cfgMaxRetries cfgSleepAbort2 + 1) 1 []).hist ∧
    (executeInternal cfgSleepAbort2 envSleepAbort2).2 =
      (runAttemptGo cfgSleepAbort2 envSleepAbort2
        (cfgMaxRetries cfgSleepAbort2 + 1) 1 []).events ++
        [Event.onFinally] :=
  ⟨c5_sleep_abort_terminates.1 ℕ cfgSleepAbort2 envSleepAbort2
      rcSleepAbort2 2 2 hist1SleepAbort2 genericErrorRaw rfl rfl
      (by decide) (by decide) rfl rfl,
   (c5_sleep_abort_terminates.2 ℕ cfgSleepAbort2 envSleepAbort2
      { code := "UNKNOWN", retryable := true } rfl (by decide)
      (by decide)).1,
   (c5_sleep_abort_terminates.2 ℕ cfgSleepAbort2 envSleepAbort2
      { code := "UNKNOWN", retryable := true } rfl (by decide)
      (by decide)).2.1,
   (c5_sleep_abort_terminates.2 ℕ cfgSleepAbort2 envSleepAbort2
      { code := "UNKNOWN", retryable := true } rfl (by decide)
      (by decide)).2.2.1,
   (c5_sleep_abort_terminates.2 ℕ cfgSleepAbort2 envSleepAbort2
      { code := "UNKNOWN", retryable := true } rfl (by decide)
      (by decide)).2.2.2.1,
   (c5_sleep_abort_terminates.2 ℕ cfgSleepAbort2 envSleepAbort2
      { code := "UNKNOWN", retryable := true } rfl (by decide)
      (by decide)).2.2.2.2⟩

/-- C7: a half-open breaker whose probe budget is already consumed
rejects the call — `run` returns a `CIRCUIT_OPEN` failure with
`totalAttempts = 0` without reaching the task, and the breaker state is
left unchanged (modulo the time-based update) — while an admitted
half-open call consumes exactly one probe. -/
theorem c7_half_open_budget :
    (∀ (α : Type) (cfg : EngCfg) (bcfg : BreakerCfg) (now : ℚ)
        (env : TaskEnv α) (bs : BState),
      (updateStateIfNeeded now bs).state = CircuitState.halfOpen →
      bcfg.halfOpenRequests ≤ (updateStateIfNeeded now bs).halfOpenCount →
      (engineRun cfg bcfg now env bs).admitted = false ∧
      (engineRun cfg bcfg now env bs).result.error =
        some circuitOpenError ∧
      (engineRun cfg bcfg now env bs).result.metrics.totalAttempts = 0 ∧
      (engineRun cfg bcfg now env bs).bstate =
        updateStateIfNeeded now bs) ∧
    (∀ (bcfg : BreakerCfg) (now : ℚ) (bs : BState),
      (updateStateIfNeeded now bs).state = CircuitState.halfOpen →
      (updateStateIfNeeded now bs).halfOpenCount < bcfg.halfOpenRequests →
      (canExecute bcfg now bs).1 = true ∧
      (canExecute bcfg now bs).2.halfOpenCount =
        (updateStateIfNeeded now bs).halfOpenCount + 1) := by
  constructor
  · intro α cfg bcfg now env bs hst hbud
    have hcan : canExecute bcfg now bs =
        (false, updateStateIfNeeded now bs) := by
      simp [canExecute, hst, hbud]
    simp [engineRun, hcan]
  · intro bcfg now bs hst hbud
    have hcan : canExecute bcfg now bs =
        (true, { updateStateIfNeeded now bs with
                   halfOpenCount :=
                     (updateStateIfNeeded now bs).halfOpenCount + 1 }) := by
      simp [canExecute, hst, Nat.not_le_of_lt hbud]
    simp [hcan]

/-- C7 witness: with `halfOpenRequests = 1`, a half-open state with its
probe spent is rejected as `CIRCUIT_OPEN`, while one with a free probe
is admitted and the probe count rises to 1. -/
theorem c7_half_open_budget_witness :
    (engineRun cfg404 bcfgSmall 0 env404 bsProbeSpent).admitted = false ∧
    (engineRun cfg404 bcfgSmall 0 env404 bsProbeSpent).result.error =
      some circuitOpenError ∧
    (engineRun cfg404 bcfgSmall 0 env404
        bsProbeSpent).result.metrics.totalAttempts = 0 ∧
    (canExecute bcfgSmall 0 bsProbeFree).1 = true ∧
    (canExecute bcfgSmall 0 bsProbeFree).2.halfOpenCount = 1 :=
  ⟨(c7_half_open_budget.1 ℕ cfg404 bcfgSmall 0 env404 bsProbeSpent rfl
      (by decide)).1,
   (c7_half_open_budget.1 ℕ cfg404 bcfgSmall 0 env404 bsProbeSpent rfl
      (by decide)).2.1,
   (c7_half_open_budget.1 ℕ cfg404 bcfgSmall 0 env404 bsProbeSpent rfl
      (by decide)).2.2.1,
   (c7_half_open_budget.2 bcfgSmall 0 bsProbeFree rfl (by decide)).1,
   (c7_half_open_budget.2 bcfgSmall 0 bsProbeFree rfl (by decide)).2⟩

/-- After `k` aborted-error failures (no `shouldCountAsFailure` filter,
threshold not yet reached), the breaker is still closed with
`failureCount = k`. -/
theorem recordFailure_iterate_closed (bcfg : BreakerCfg) (now : ℚ)
    (hflt : bcfg.shouldCountAsFailure = none) :
    ∀ k, k < bcfg.failureThreshold →
      (fun s => recordFailure bcfg now abortedTypedError s)^[k]
          initialBState =
        { state := CircuitState.closed, failureCount := k,
          halfOpenCount := 0,
          lastFailureTime := if k = 0 then none else some now,
          nextAttemptTime := none } := by
  intro k
  induction k with
  | zero => intro _; simp [initialBState]
  | succ k ih =>
      intro hk
      rw [Function.iterate_succ_apply', ih (by omega)]
      simp only [recordFailure, hflt]
      have hlt : ¬ k + 1 ≥ bcfg.failureThreshold := by omega
      simp [hlt]

/-- C9: with a breaker configured, every non-success result of `run` —
aborted and timeout results included — is passed to `recordFailure`;
without a `shouldCountAsFailure` filter a closed breaker increments its
consecutive-failure count on each such error, so `failureThreshold`
caller cancellations alone (each normalized to the `ABORTED` error)
drive the breaker from closed to open. -/
theorem c9_breaker_counts_aborts :
    (∀ (α : Type) (cfg : EngCfg) (bcfg : BreakerCfg) (now : ℚ)
        (env : TaskEnv α) (bs : BState),
      (canExecute bcfg now bs).1 = true →
      (executeInternal cfg env).1.ok = false →
      (engineRun cfg bcfg now env bs).bstate =
        recordFailure bcfg now
          (((executeInternal cfg env).1.error).getD
            { code := "UNKNOWN", retryable := true })
          (canExecute bcfg now bs).2) ∧
    (∀ (bcfg : BreakerCfg) (now : ℚ) (e : TypedErrorE) (s : BState),
      bcfg.shouldCountAsFailure = none →
      s.state = CircuitState.closed →
      s.failureCount + 1 < bcfg.failureThreshold →
      (recordFailure bcfg now e s).state = CircuitState.closed ∧
      (recordFailure bcfg now e s).failureCount = s.failureCount + 1) ∧
    (∀ (bcfg : BreakerCfg) (now : ℚ) (e : TypedErrorE) (s : BState)
        (p : TypedErrorE → Bool),
      bcfg.shouldCountAsFailure = some p → p e = false →
      recordFailure bcfg now e s = s) ∧
    (∀ (bcfg : BreakerCfg) (now : ℚ) (N : ℕ),
      bcfg.shouldCountAsFailure = none →
      bcfg.failureThreshold = N → 1 ≤ N →
      ((fun s => recordFailure bcfg now abortedTypedError s)^[N]
          initialBState).state = CircuitState.open) ∧
    (executeInternal cfgPreAborted env404).1.ok = false ∧
    (executeInternal cfgPreAborted env404).1.error =
      some abortedTypedError := by
  refine ⟨?_, ?_, ?_, ?_, by decide, by decide⟩
  · intro α cfg bcfg now env bs hcan hok
    simp only [engineRun]
    rw [hcan]
    simp [hok]
    cases (executeInternal cfg env).1.error <;> rfl
  · intro bcfg now e s hflt hcl hlt
    have hnge : ¬ s.failureCount + 1 ≥ bcfg.failureThreshold := by omega
    simp [recordFailure, hflt, hcl, hnge]
  · intro bcfg now e s p hflt hpe
    simp [recordFailure, hflt, hpe]
  · intro bcfg now N hflt hth hN
    have hN1 : N - 1 < bcfg.failureThreshold := by omega
    have h0 : N = (N - 1) + 1 := by omega
    rw [h0, Function.iterate_succ_apply',
      recordFailure_iterate_closed bcfg now hflt (N - 1) hN1]
    simp only [recordFailure, hflt]
    have hge : N - 1 + 1 ≥ bcfg.failureThreshold := by omega
    simp [hge]

/-- C9 witness: two consecutive runs whose results are aborted open a
threshold-2 breaker; the update path and the closed-state increment are
exercised at concrete inputs. -/
theorem c9_breaker_counts_aborts_witness :
    (engineRun cfgPreAborted bcfgSmall 0 env404 initialBState).bstate =
      recordFailure bcfgSmall 0
        (((executeInternal cfgPreAborted env404).1.error).getD
          { code := "UNKNOWN", retryable := true })
        (canExecute bcfgSmall 0 initialBState).2 ∧
    ((fun s => recordFailure bcfgSmall 0 abortedTypedError s)^[2]
        initialBState).state = CircuitState.open :=
  ⟨c9_breaker_counts_aborts.1 ℕ cfgPreAborted bcfgSmall 0 env404
      initialBState (by decide) (by decide),
   c9_breaker_counts_aborts.2.2.2.1 bcfgSmall 0 2 rfl rfl (by decide)⟩

end Tryo
